import Mathlib

/-!
# Verification of the easy-peasy-ease video retiming pipeline

Shallow embedding of the algorithmic core of the repository:

* the metadata/bitrate resolution and encode-tier negotiation of
  `hooks/useApplySpeedCurve.ts` (`applySpeedCurve`),
* the sequential-advance speed-curve resampler of the same file,
* the multi-path finalization orchestrator of `hooks/useFinalizeVideo.ts`
  (`finalizeVideos`),
* the audio fade processing `applyFades` (two textually identical copies in
  the repository's audio remux and audio mixing hooks).

Numbers are embedded as rationals (`ℚ`), JavaScript `Math.round` /
`Math.floor` / `Math.ceil` as explicit floor-based operations, JS `Map`s as
association lists, thrown exceptions as `Option`/error constructors, and the
decode/encode engine as explicit function parameters.
-/

/-- JavaScript `Math.round x`: round half toward positive infinity,
i.e. `⌊x + 1/2⌋`. -/
def jsRound (x : ℚ) : ℤ := ⌊x + 1 / 2⌋

/-- JavaScript `x & ~1` for the non-negative values arising here: clear the
low bit, forcing the number even. -/
def dropLowBit (n : ℕ) : ℕ := 2 * (n / 2)

/-! ## Constants from `lib/speed-curve-config.ts` -/

/-- `DEFAULT_BITRATE = 25_000_000` (25 Mbps baseline). -/
def DEFAULT_BITRATE : ℚ := 25000000

/-- `TARGET_FRAME_RATE = 30`. -/
def TARGET_FRAME_RATE : ℚ := 30

/-- `MOBILE_SAFE_BITRATE_CAP = 8_000_000`, declared locally in
`applySpeedCurve` ("Cap bitrate to 8Mbps to prevent mobile decoder
exhaustion/freezing"). -/
def MOBILE_SAFE_BITRATE_CAP : ℤ := 8000000

/-! ## Bitrate resolution (`useApplySpeedCurve.ts`, lines 272-278)

```
let resolvedBitrate = Number.isFinite(bitrate) ? bitrate : DEFAULT_BITRATE;
if (packetStats?.averageBitrate && Number.isFinite(packetStats.averageBitrate)) {
  resolvedBitrate = Math.max(resolvedBitrate, packetStats.averageBitrate);
}
const MOBILE_SAFE_BITRATE_CAP = 8_000_000;
resolvedBitrate = Math.min(Math.max(1, Math.floor(resolvedBitrate)), MOBILE_SAFE_BITRATE_CAP);
```

A rational caller-supplied `bitrate` is always finite, so the
`Number.isFinite` guard keeps it.  `packetStats` may be `null` and
`averageBitrate` is truthiness-tested, so a measured average of `0` is
ignored. -/

/-- The resolved encoder bitrate computed by `applySpeedCurve` from the
caller-supplied bitrate and the probed average bitrate of the source
(`none` models a failed/absent packet-stats probe). -/
def resolveBitrate (bitrate : ℚ) (averageBitrate : Option ℚ) : ℤ :=
  let r1 : ℚ := bitrate
  let r2 : ℚ :=
    match averageBitrate with
    | some a => if a ≠ 0 then max r1 a else r1
    | none => r1
  min (max 1 ⌊r2⌋) MOBILE_SAFE_BITRATE_CAP

/-- C1 counterexample: with a caller-supplied bitrate of 1 Mbps and a
measured average bitrate of 10 Mbps, the resolved bitrate is the 8 Mbps
mobile-safety cap, which is strictly lower than the measured average —
refuting "the resolved encoder bitrate is never lower than the measured
average bitrate" and "the measured value is the one used". -/
theorem resolveBitrate_cap_below_measured :
    resolveBitrate 1000000 (some 10000000) = 8000000 ∧
      resolveBitrate 1000000 (some 10000000) < 10000000 ∧
      (1000000 : ℚ) < 10000000 := by
  refine ⟨?_, ?_, by norm_num⟩ <;> decide

/-- C1 (amended): whenever the probe reports a nonzero average bitrate
larger than the caller-supplied default, the measured value wins over the
default — the default never decreases the result — but the resolved bitrate
is then the measured value floored and clamped into `[1, 8_000_000]`: the
8 Mbps mobile-safety cap may bring it below the measured average. -/
theorem resolveBitrate_measured_wins_before_cap (b a : ℚ)
    (ha : 0 < a) (hba : b < a) :
    resolveBitrate b (some a) = min (max 1 ⌊a⌋) MOBILE_SAFE_BITRATE_CAP ∧
      min ⌊a⌋ MOBILE_SAFE_BITRATE_CAP ≤ resolveBitrate b (some a) ∧
      resolveBitrate b none ≤ resolveBitrate b (some a) := by
  have hane : a ≠ 0 := ne_of_gt ha
  have hmax : max b a = a := max_eq_right hba.le
  have hkey : resolveBitrate b (some a) = min (max 1 ⌊a⌋) MOBILE_SAFE_BITRATE_CAP := by
    simp [resolveBitrate, hane, hmax]
  refine ⟨hkey, ?_, ?_⟩
  · rw [hkey]
    exact min_le_min (le_max_right 1 ⌊a⌋) le_rfl
  · rw [hkey]
    have hfl : ⌊b⌋ ≤ ⌊a⌋ := Int.floor_le_floor hba.le
    exact min_le_min (max_le_max le_rfl hfl) le_rfl

/-- Witness for `resolveBitrate_measured_wins_before_cap` at
`b = 1000000`, `a = 10000000`. -/
theorem resolveBitrate_measured_wins_before_cap_witness :
    (0 : ℚ) < 10000000 ∧ (1000000 : ℚ) < 10000000 ∧
      (resolveBitrate 1000000 (some 10000000) =
          min (max 1 ⌊(10000000 : ℚ)⌋) MOBILE_SAFE_BITRATE_CAP ∧
        min ⌊(10000000 : ℚ)⌋ MOBILE_SAFE_BITRATE_CAP ≤
          resolveBitrate 1000000 (some 10000000) ∧
        resolveBitrate 1000000 none ≤ resolveBitrate 1000000 (some 10000000)) :=
  ⟨by norm_num, by norm_num,
    resolveBitrate_measured_wins_before_cap 1000000 10000000 (by norm_num) (by norm_num)⟩

/-! ## Encode-tier negotiation (`useApplySpeedCurve.ts`, lines 397-461)

The source builds a fixed descending list of three tiers (Original / 1080p /
720p), resolves the target dimensions per tier (aspect-ratio-preserving
downscale with even-forcing when downscaling is required), probes
`canEncodeVideo` on the exact tuple, and accepts the first supported tier;
if none is supported it throws a fatal error, modelled here by `none`. -/

/-- Codec string constants from `lib/video-encoding.ts`. -/
def AVC_LEVEL_4_0 : String := "avc1.42C028"

/-- `AVC_LEVEL_4_2 = 'avc1.42C02A'`. -/
def AVC_LEVEL_4_2 : String := "avc1.42C02A"

/-- A candidate output tier (`VideoTier` in the source). -/
structure VideoTier where
  width : ℕ
  height : ℕ
  bitrate : ℤ
  codec : String
  label : String
deriving DecidableEq

/-- The fixed tier list built by `applySpeedCurve` from source dimensions and
the resolved bitrate (Original → 1080p capped at 15 Mbps → 720p capped at
5 Mbps). -/
def videoTiers (sourceWidth sourceHeight : ℕ) (resolvedBitrate : ℤ) : List VideoTier :=
  [ { width := sourceWidth, height := sourceHeight, bitrate := resolvedBitrate,
      codec := AVC_LEVEL_4_2, label := "Original" },
    { width := min sourceWidth 1920, height := min sourceHeight 1080,
      bitrate := min resolvedBitrate 15000000, codec := AVC_LEVEL_4_0, label := "1080p" },
    { width := min sourceWidth 1280, height := min sourceHeight 720,
      bitrate := min resolvedBitrate 5000000, codec := "avc1.42001f", label := "720p" } ]

/-- Per-tier target dimensions: when downscaling is required
(`targetWidth < sourceWidth || targetHeight < sourceHeight`), scale both
source dimensions by `min(tierWidth/sourceWidth, tierHeight/sourceHeight)`,
round, and mask off the low bit. -/
def resolveTierDims (sourceWidth sourceHeight : ℕ) (tier : VideoTier) : ℕ × ℕ :=
  if tier.width < sourceWidth ∨ tier.height < sourceHeight then
    let scale : ℚ := min ((tier.width : ℚ) / sourceWidth) ((tier.height : ℚ) / sourceHeight)
    (dropLowBit (jsRound ((sourceWidth : ℚ) * scale)).toNat,
      dropLowBit (jsRound ((sourceHeight : ℚ) * scale)).toNat)
  else
    (tier.width, tier.height)

/-- The configuration selected by the negotiation loop. -/
structure SelectedConfig where
  width : ℕ
  height : ℕ
  bitrate : ℤ
  codec : String
  label : String
  framerate : ℕ
deriving DecidableEq

/-- Resolve a tier into the candidate configuration probed by
`canEncodeVideo`. -/
def tierCandidate (sourceWidth sourceHeight : ℕ) (targetFramerate : ℕ)
    (tier : VideoTier) : SelectedConfig :=
  let dims := resolveTierDims sourceWidth sourceHeight tier
  { width := dims.1, height := dims.2, bitrate := tier.bitrate,
    codec := tier.codec, label := tier.label, framerate := targetFramerate }

/-- The `for (const tier of tiers)` loop: accept the first tier whose probed
tuple the device supports. -/
def selectTier (support : ℕ → ℕ → ℤ → String → Bool)
    (sourceWidth sourceHeight : ℕ) (targetFramerate : ℕ) :
    List VideoTier → Option SelectedConfig
  | [] => none
  | tier :: rest =>
    let c := tierCandidate sourceWidth sourceHeight targetFramerate tier
    if support c.width c.height c.bitrate c.codec then some c
    else selectTier support sourceWidth sourceHeight targetFramerate rest

/-- The encode-tier negotiator of `applySpeedCurve`: iterate the fixed tier
list, pick the first supported configuration; `none` models the thrown
fatal error "Device encoder does not support the required H.264 profiles". -/
def negotiateTier (support : ℕ → ℕ → ℤ → String → Bool)
    (sourceWidth sourceHeight : ℕ) (resolvedBitrate : ℤ) (targetFramerate : ℕ) :
    Option SelectedConfig :=
  selectTier support sourceWidth sourceHeight targetFramerate
    (videoTiers sourceWidth sourceHeight resolvedBitrate)

/-- A capability table on which only the 720p tier's tuple reports
supported (its codec string `avc1.42001f` is unique to that tier). -/
def only720pSupport : ℕ → ℕ → ℤ → String → Bool :=
  fun _ _ _ codec => codec == "avc1.42001f"

/-- `selectTier` is exactly "first supported candidate". -/
theorem selectTier_eq_find (support : ℕ → ℕ → ℤ → String → Bool)
    (sw sh fr : ℕ) (tiers : List VideoTier) :
    selectTier support sw sh fr tiers =
      (tiers.map (tierCandidate sw sh fr)).find?
        (fun c => support c.width c.height c.bitrate c.codec) := by
  induction tiers with
  | nil => rfl
  | cons t rest ih =>
    simp only [selectTier, List.map_cons, List.find?]
    by_cases h : support (tierCandidate sw sh fr t).width (tierCandidate sw sh fr t).height
        (tierCandidate sw sh fr t).bitrate (tierCandidate sw sh fr t).codec
    · simp [h]
    · simp only [h, Bool.false_eq_true, if_false, cond_false]
      exact ih

/-- `dropLowBit` output is always even. -/
theorem dropLowBit_even (n : ℕ) : 2 ∣ dropLowBit n := ⟨n / 2, rfl⟩

/-- With only the 720p tier supported, the first two tiers are rejected and
the 720p candidate is accepted with even dimensions 1280x720. -/
theorem negotiateTier_4k_only720p (br : ℤ) (fr : ℕ) :
    negotiateTier only720pSupport 3840 2160 br fr =
      some { width := 1280, height := 720, bitrate := min br 5000000,
             codec := "avc1.42001f", label := "720p", framerate := fr } := by
  have d3 : resolveTierDims 3840 2160
      { width := 1280, height := 720, bitrate := min br 5000000,
        codec := "avc1.42001f", label := "720p" } = (1280, 720) := by
    simp only [resolveTierDims]
    norm_num [jsRound, dropLowBit]
    decide
  have hs1 : ("avc1.42C02A" : String) ≠ "avc1.42001f" := by decide
  have hs2 : ("avc1.42C028" : String) ≠ "avc1.42001f" := by decide
  simp only [negotiateTier, videoTiers, selectTier, tierCandidate, only720pSupport]
  norm_num [AVC_LEVEL_4_0, AVC_LEVEL_4_2]
  rw [if_neg hs1, if_neg hs2, d3]

/-- C5: the encode-tier negotiator (a) selects exactly the first tier of its
fixed highest-to-lowest list that the device reports as supported, (b) when a
tier requires downscaling both output dimensions are the source dimensions
scaled by `min(tierWidth/sourceWidth, tierHeight/sourceHeight)` rounded and
forced even by masking off the low bit, (c) returns the fatal-error signal
(`none`) when no tier is supported, and (d) for a 3840x2160 source with only
the 720p tier supported it selects exactly the 720p tier, with both
dimensions even. -/
theorem tier_negotiation_spec :
    (∀ (support : ℕ → ℕ → ℤ → String → Bool) (sw sh : ℕ) (br : ℤ) (fr : ℕ),
        negotiateTier support sw sh br fr =
          ((videoTiers sw sh br).map (tierCandidate sw sh fr)).find?
            (fun c => support c.width c.height c.bitrate c.codec)) ∧
    (∀ (sw sh : ℕ) (t : VideoTier), t.width < sw ∨ t.height < sh →
        resolveTierDims sw sh t =
          (dropLowBit (jsRound ((sw : ℚ) *
              min ((t.width : ℚ) / sw) ((t.height : ℚ) / sh))).toNat,
            dropLowBit (jsRound ((sh : ℚ) *
              min ((t.width : ℚ) / sw) ((t.height : ℚ) / sh))).toNat) ∧
          2 ∣ (resolveTierDims sw sh t).1 ∧ 2 ∣ (resolveTierDims sw sh t).2) ∧
    (∀ (support : ℕ → ℕ → ℤ → String → Bool) (sw sh : ℕ) (br : ℤ) (fr : ℕ),
        (∀ t ∈ videoTiers sw sh br,
            support (tierCandidate sw sh fr t).width (tierCandidate sw sh fr t).height
              (tierCandidate sw sh fr t).bitrate (tierCandidate sw sh fr t).codec = false) →
        negotiateTier support sw sh br fr = none) ∧
    (∀ (br : ℤ) (fr : ℕ),
        negotiateTier only720pSupport 3840 2160 br fr =
          some { width := 1280, height := 720, bitrate := min br 5000000,
                 codec := "avc1.42001f", label := "720p", framerate := fr } ∧
          2 ∣ (1280 : ℕ) ∧ 2 ∣ (720 : ℕ)) := by
  refine ⟨?_, ?_, ?_, ?_⟩
  · intro support sw sh br fr
    exact selectTier_eq_find support sw sh fr (videoTiers sw sh br)
  · intro sw sh t h
    refine ⟨by rw [resolveTierDims, if_pos h], ?_, ?_⟩ <;>
      · rw [resolveTierDims, if_pos h]
        exact dropLowBit_even _
  · intro support sw sh br fr hnone
    rw [negotiateTier, selectTier_eq_find]
    rw [List.find?_eq_none]
    intro c hc
    rw [List.mem_map] at hc
    obtain ⟨t, ht, rfl⟩ := hc
    simp [hnone t ht]
  · intro br fr
    exact ⟨negotiateTier_4k_only720p br fr, ⟨640, rfl⟩, ⟨360, rfl⟩⟩

/-- Witness for `tier_negotiation_spec`: instantiates the universally
quantified parts at concrete inputs, discharging the downscale and
no-tier-supported hypotheses there. -/
theorem tier_negotiation_spec_witness :
    (negotiateTier only720pSupport 3840 2160 8000000 30 =
        ((videoTiers 3840 2160 8000000).map (tierCandidate 3840 2160 30)).find?
          (fun c => only720pSupport c.width c.height c.bitrate c.codec)) ∧
    ((min 3840 1280 : ℕ) < 3840 ∨ (min 2160 720 : ℕ) < 2160) ∧
    (resolveTierDims 3840 2160
        { width := min 3840 1280, height := min 2160 720, bitrate := 5000000,
          codec := "avc1.42001f", label := "720p" }).1 % 2 = 0 ∧
    negotiateTier (fun _ _ _ _ => false) 3840 2160 8000000 30 = none ∧
    negotiateTier only720pSupport 3840 2160 8000000 30 =
      some { width := 1280, height := 720, bitrate := min 8000000 5000000,
             codec := "avc1.42001f", label := "720p", framerate := 30 } := by
  have h := tier_negotiation_spec
  have hdown : (min 3840 1280 : ℕ) < 3840 ∨ (min 2160 720 : ℕ) < 2160 := by norm_num
  refine ⟨h.1 only720pSupport 3840 2160 8000000 30, hdown, ?_, ?_, ?_⟩
  · have := (h.2.1 3840 2160
      { width := min 3840 1280, height := min 2160 720, bitrate := 5000000,
        codec := "avc1.42001f", label := "720p" } hdown).2.1
    omega
  · exact h.2.2.1 (fun _ _ _ _ => false) 3840 2160 8000000 30 (by intro t _; rfl)
  · exact (h.2.2.2 8000000 30).1

/-! ## The sequential-advance resampler (`useApplySpeedCurve.ts`, lines 485-593)

```
const outputFrameRate = 30; // Force 30fps CFR for maximum compatibility
const totalOutputFrames = Math.ceil(outputDuration * outputFrameRate);
const frameDuration = 1 / outputFrameRate;
```

Pass 1 counts the exact number of decodable frames (`exactFrameCount`,
fatal if zero); pass 2 walks a forward-only sample iterator over the same
sanitized blob, so both are modelled by one parameter `frameCount`.  For
output frame `i` the loop computes
`targetInputIndex = Math.min(exactFrameCount - 1, Math.round(progressIn * (exactFrameCount - 1)))`
with `progressIn = easing(i / (totalOutputFrames - 1))`, advances the
iterator forward (never backward, holding the current sample when the
iterator is exhausted), and emits a clone of the held sample at timestamp
`i * frameDuration` with duration `frameDuration`.  After the loop one
"sacrificial" padding clone of the held sample is emitted at timestamp
`totalOutputFrames * frameDuration`, then the video source is closed and the
container finalized.

When `totalOutputFrames == 1` the JS expression `i / (totalOutputFrames - 1)`
is `0/0 = NaN`; every comparison against `NaN` is false, so the advance loop
never runs — modelled by a target index of `0`, with which the advance is
likewise a no-op. -/

/-- The forced output frame rate of the resampler (30 fps CFR). -/
def outputFrameRate : ℚ := 30

/-- `frameDuration = 1 / outputFrameRate`. -/
def frameDuration : ℚ := 1 / outputFrameRate

/-- `totalOutputFrames = Math.ceil(outputDuration * outputFrameRate)` (a
non-positive product yields an empty loop, matching `⌈·⌉₊ = 0`). -/
def totalOutputFrames (outputDuration : ℚ) : ℕ := ⌈outputDuration * outputFrameRate⌉₊

/-- Target input frame index for output frame `i` (lines 505-516). -/
def targetInputIndex (total frameCount : ℕ) (easing : ℚ → ℚ) (i : ℕ) : ℤ :=
  if total = 1 then 0
  else
    min ((frameCount : ℤ) - 1)
      (jsRound (easing ((i : ℚ) / ((total : ℚ) - 1)) * ((frameCount : ℚ) - 1)))

/-- The forward-only advance (lines 519-534): starting from held index
`idx`, advance toward `tgt` but stop when the iterator is exhausted
(`len` frames in total); never move backward. -/
def advanceIdx (len idx : ℕ) (tgt : ℤ) : ℕ :=
  if tgt ≤ (idx : ℤ) then idx else min tgt.toNat (len - 1)

/-- Index of the input sample held after processing output frame `i`. -/
def heldIndex (frameCount : ℕ) (easing : ℚ → ℚ) (total : ℕ) : ℕ → ℕ
  | 0 => advanceIdx frameCount 0 (targetInputIndex total frameCount easing 0)
  | i + 1 =>
    advanceIdx frameCount (heldIndex frameCount easing total i)
      (targetInputIndex total frameCount easing (i + 1))

/-- One emitted output sample: its output timestamp, duration, and the
decode-order index of the source sample it clones. -/
structure EmittedFrame where
  timestamp : ℚ
  duration : ℚ
  sourceIndex : ℕ
deriving DecidableEq

/-- The resample loop's emissions in order (lines 505-563).  With zero
decodable frames nothing is emitted (the run aborts before the loop). -/
def resampleEmits (frameCount : ℕ) (easing : ℚ → ℚ) (total : ℕ) : List EmittedFrame :=
  if frameCount = 0 then []
  else
    (List.range total).map fun (i : ℕ) =>
      { timestamp := (i : ℚ) * frameDuration, duration := frameDuration,
        sourceIndex := heldIndex frameCount easing total i }

/-- Observable pipeline events after the resample loop begins: sample
emissions, closing the video sample source, finalizing the container. -/
inductive PipelineEvent where
  | emit (f : EmittedFrame)
  | closeVideoSource
  | finalizeOutput
deriving DecidableEq

/-- The event trace of `applySpeedCurve` from the resample loop to container
finalization (lines 505-593): the loop's emissions, then the sacrificial
padding clone of the held sample at `totalOutputFrames * frameDuration`,
then `videoSource.close()`, then `output.finalize()`.  With zero decodable
frames the function throws before the loop (empty trace). -/
def applySpeedCurveTrace (frameCount : ℕ) (easing : ℚ → ℚ)
    (outputDuration : ℚ) : List PipelineEvent :=
  let total := totalOutputFrames outputDuration
  if frameCount = 0 then []
  else
    let lastHeld := if total = 0 then 0 else heldIndex frameCount easing total (total - 1)
    (resampleEmits frameCount easing total).map .emit ++
      [.emit { timestamp := (total : ℚ) * frameDuration, duration := frameDuration,
               sourceIndex := lastHeld },
       .closeVideoSource, .finalizeOutput]

/-- Whether a pipeline event is a sample emission. -/
def isEmitEvent : PipelineEvent → Bool
  | .emit _ => true
  | _ => false

/-- Unfold an indexed access into the emission list. -/
theorem resampleEmits_getElem (frameCount : ℕ) (easing : ℚ → ℚ) (total i : ℕ)
    (hfc : 1 ≤ frameCount) (f : EmittedFrame)
    (h : (resampleEmits frameCount easing total)[i]? = some f) :
    i < total ∧
      f = { timestamp := (i : ℚ) * frameDuration, duration := frameDuration,
            sourceIndex := heldIndex frameCount easing total i } := by
  rw [resampleEmits, if_neg (by omega)] at h
  have hi : i < total := by
    by_contra hge
    rw [List.getElem?_eq_none (by simpa using Nat.le_of_not_lt hge)] at h
    exact Option.noConfusion h
  rw [List.getElem?_map, List.getElem?_range hi] at h
  simp only [Option.map_some', Option.some.injEq] at h
  exact ⟨hi, h.symm⟩

/-- C6: every frame emitted by the resampler at output index `i` carries the
timestamp `i * (1/outputFrameRate)` computed directly from the integer
index; the emitted timestamp sequence is strictly increasing and
consecutive timestamps differ by exactly `1/outputFrameRate` (no
accumulated drift). -/
theorem output_timestamp_from_index (frameCount : ℕ) (easing : ℚ → ℚ)
    (outputDuration : ℚ) (hfc : 1 ≤ frameCount) :
    (∀ (i : ℕ) (f : EmittedFrame),
        (resampleEmits frameCount easing (totalOutputFrames outputDuration))[i]? = some f →
        f.timestamp = (i : ℚ) * (1 / outputFrameRate)) ∧
    (∀ (i j : ℕ) (fi fj : EmittedFrame),
        (resampleEmits frameCount easing (totalOutputFrames outputDuration))[i]? = some fi →
        (resampleEmits frameCount easing (totalOutputFrames outputDuration))[j]? = some fj →
        i < j → fi.timestamp < fj.timestamp) ∧
    (∀ (i : ℕ) (fi fj : EmittedFrame),
        (resampleEmits frameCount easing (totalOutputFrames outputDuration))[i]? = some fi →
        (resampleEmits frameCount easing (totalOutputFrames outputDuration))[i + 1]? = some fj →
        fj.timestamp - fi.timestamp = 1 / outputFrameRate) := by
  have hts : ∀ (i : ℕ) (f : EmittedFrame),
      (resampleEmits frameCount easing (totalOutputFrames outputDuration))[i]? = some f →
      f.timestamp = (i : ℚ) * frameDuration := by
    intro i f h
    rw [(resampleEmits_getElem frameCount easing _ i hfc f h).2]
  refine ⟨?_, ?_, ?_⟩
  · intro i f h
    rw [hts i f h, frameDuration]
  · intro i j fi fj hi hj hij
    rw [hts i fi hi, hts j fj hj]
    have hd : (0 : ℚ) < frameDuration := by norm_num [frameDuration, outputFrameRate]
    have hcast : (i : ℚ) < (j : ℚ) := by exact_mod_cast hij
    exact mul_lt_mul_of_pos_right hcast hd
  · intro i fi fj hi hj
    rw [hts i fi hi, hts (i + 1) fj hj, frameDuration]
    push_cast
    ring

/-- The target index is always `0` when the source has exactly one decodable
frame. -/
theorem targetInputIndex_oneFrame (total : ℕ) (easing : ℚ → ℚ) (i : ℕ) :
    targetInputIndex total 1 easing i = 0 := by
  rw [targetInputIndex]
  split
  · rfl
  · norm_num [jsRound]

/-- With one decodable frame the held index stays `0`. -/
theorem heldIndex_oneFrame (easing : ℚ → ℚ) (total i : ℕ) :
    heldIndex 1 easing total i = 0 := by
  induction i with
  | zero => rw [heldIndex, targetInputIndex_oneFrame, advanceIdx]; simp
  | succ n ih => rw [heldIndex, ih, targetInputIndex_oneFrame, advanceIdx]; simp

/-- A one-second output at the forced 30 fps yields 30 output frames. -/
theorem totalOutputFrames_one : totalOutputFrames 1 = 30 := by
  rw [totalOutputFrames, outputFrameRate]
  norm_num

/-- Witness for `output_timestamp_from_index`: one decodable frame, identity
easing, a one-second output (30 output frames); the frame emitted at output
index 2 carries timestamp `2 * (1/30) = 1/15`. -/
theorem output_timestamp_from_index_witness :
    (1 : ℕ) ≤ 1 ∧
      (resampleEmits 1 id (totalOutputFrames 1))[2]? =
        some { timestamp := 1 / 15, duration := 1 / 30, sourceIndex := 0 } ∧
      ({ timestamp := 1 / 15, duration := 1 / 30, sourceIndex := 0 } : EmittedFrame).timestamp
        = (2 : ℚ) * (1 / outputFrameRate) := by
  have heval : (resampleEmits 1 id (totalOutputFrames 1))[2]? =
      some { timestamp := 1 / 15, duration := 1 / 30, sourceIndex := 0 } := by
    rw [totalOutputFrames_one, resampleEmits, if_neg (by omega), List.getElem?_map,
      List.getElem?_range (by norm_num)]
    simp only [Option.map_some', Option.some.injEq]
    rw [heldIndex_oneFrame]
    norm_num [frameDuration, outputFrameRate]
  exact ⟨le_refl 1, heval,
    (output_timestamp_from_index 1 id 1 (le_refl 1)).1 2 _ heval⟩

/-- `jsRound` is monotone. -/
theorem jsRound_mono {x y : ℚ} (h : x ≤ y) : jsRound x ≤ jsRound y :=
  Int.floor_le_floor (by linarith)

/-- C7: for every easing function that is monotone non-decreasing on `[0,1]`
(with the §4.1 easing contract `ease 1 = 1` and non-negative values), every
frame count `F ≥ 1` and every `totalOutputFrames ≥ 2`, the resampler's
target input index is a non-decreasing function of the output frame index,
coincides with the spec's `[0, F-1]`-clamped rounding formula, and equals
`F - 1` at the last output frame. -/
theorem target_index_monotone (easing : ℚ → ℚ) (F total : ℕ)
    (hF : 1 ≤ F) (htotal : 2 ≤ total)
    (hmono : ∀ a b : ℚ, 0 ≤ a → a ≤ b → b ≤ 1 → easing a ≤ easing b)
    (hnonneg : ∀ t : ℚ, 0 ≤ t → t ≤ 1 → 0 ≤ easing t)
    (hone : easing 1 = 1) :
    (∀ i j : ℕ, i ≤ j → j < total →
        targetInputIndex total F easing i ≤ targetInputIndex total F easing j) ∧
    (∀ i : ℕ, i < total →
        targetInputIndex total F easing i =
          max 0 (min ((F : ℤ) - 1)
            (jsRound (easing ((i : ℚ) / ((total : ℚ) - 1)) * ((F : ℚ) - 1))))) ∧
    targetInputIndex total F easing (total - 1) = (F : ℤ) - 1 := by
  have hne : total ≠ 1 := by omega
  have hT : (0 : ℚ) < (total : ℚ) - 1 := by
    have : (2 : ℚ) ≤ (total : ℚ) := by exact_mod_cast htotal
    linarith
  have hFQ : (0 : ℚ) ≤ (F : ℚ) - 1 := by
    have : (1 : ℚ) ≤ (F : ℚ) := by exact_mod_cast hF
    linarith
  have hprog : ∀ i : ℕ, i < total →
      0 ≤ (i : ℚ) / ((total : ℚ) - 1) ∧ (i : ℚ) / ((total : ℚ) - 1) ≤ 1 := by
    intro i hi
    constructor
    · exact div_nonneg (Nat.cast_nonneg i) hT.le
    · rw [div_le_one hT]
      have : (i : ℚ) ≤ (total : ℚ) - 1 := by
        have : i + 1 ≤ total := hi
        have := (Nat.cast_le (α := ℚ)).2 this
        push_cast at this
        linarith
      linarith
  refine ⟨?_, ?_, ?_⟩
  · intro i j hij hj
    rw [targetInputIndex, if_neg hne, targetInputIndex, if_neg hne]
    refine min_le_min le_rfl (jsRound_mono ?_)
    have hpij : (i : ℚ) / ((total : ℚ) - 1) ≤ (j : ℚ) / ((total : ℚ) - 1) := by
      rw [div_le_div_iff_of_pos_right hT]
      exact_mod_cast hij
    have he := hmono _ _ (hprog i (lt_of_le_of_lt hij hj)).1 hpij (hprog j hj).2
    exact mul_le_mul_of_nonneg_right he hFQ
  · intro i hi
    rw [targetInputIndex, if_neg hne]
    have h0 : (0 : ℤ) ≤ min ((F : ℤ) - 1)
        (jsRound (easing ((i : ℚ) / ((total : ℚ) - 1)) * ((F : ℚ) - 1))) := by
      have h1F : (1 : ℤ) ≤ (F : ℤ) := by exact_mod_cast hF
      refine le_min (by linarith) ?_
      have he := hnonneg _ (hprog i hi).1 (hprog i hi).2
      have : (0 : ℚ) ≤ easing ((i : ℚ) / ((total : ℚ) - 1)) * ((F : ℚ) - 1) :=
        mul_nonneg he hFQ
      rw [jsRound]
      apply Int.floor_nonneg.2
      linarith
    rw [max_eq_right h0]
  · rw [targetInputIndex, if_neg hne]
    have hcast : ((total - 1 : ℕ) : ℚ) = (total : ℚ) - 1 := by
      have : 1 ≤ total := by omega
      push_cast [this]
      ring
    rw [hcast, div_self (ne_of_gt hT), hone, one_mul]
    have hr : jsRound ((F : ℚ) - 1) = (F : ℤ) - 1 := by
      rw [jsRound]
      have : ((F : ℚ) - 1 + 1 / 2) = (((F : ℤ) - 1 : ℤ) : ℚ) + 1 / 2 := by push_cast; ring
      rw [this, Int.floor_int_add]
      norm_num
    rw [hr, min_self]

/-- Witness for `target_index_monotone`: the spec's Strategy-B test instance
`F = 150`, `totalOutputFrames = 45` with the identity easing — the target
index is non-decreasing between output frames 7 and 23 and ends at `149`. -/
theorem target_index_monotone_witness :
    (1 : ℕ) ≤ 150 ∧ (2 : ℕ) ≤ 45 ∧
      targetInputIndex 45 150 id 7 ≤ targetInputIndex 45 150 id 23 ∧
      targetInputIndex 45 150 id (45 - 1) = (150 : ℤ) - 1 := by
  have h := target_index_monotone id 150 45 (by norm_num) (by norm_num)
    (fun a b _ hab _ => hab) (fun t ht _ => ht) rfl
  exact ⟨by norm_num, by norm_num, h.1 7 23 (by norm_num) (by norm_num), h.2.2⟩

/-- The emission list has exactly `total` entries (when frames exist). -/
theorem resampleEmits_length (frameCount : ℕ) (easing : ℚ → ℚ) (total : ℕ)
    (hfc : 1 ≤ frameCount) :
    (resampleEmits frameCount easing total).length = total := by
  rw [resampleEmits, if_neg (by omega)]
  simp

/-- C8: whenever the source has at least one decodable frame and at least
one output frame is due, the pipeline trace is exactly the loop's emissions
followed by one padding emission, then `videoSource.close()`, then
`output.finalize()`; the padding frame clones the most recently held source
frame and sits one frame interval past the last real output frame, at
timestamp `totalOutputFrames * frameDuration`; the trace contains exactly
`totalOutputFrames + 1` emissions. -/
theorem padding_frame_emitted (frameCount : ℕ) (easing : ℚ → ℚ)
    (outputDuration : ℚ) (hfc : 1 ≤ frameCount)
    (htotal : 1 ≤ totalOutputFrames outputDuration) :
    applySpeedCurveTrace frameCount easing outputDuration =
      (resampleEmits frameCount easing (totalOutputFrames outputDuration)).map .emit ++
        [.emit { timestamp := (totalOutputFrames outputDuration : ℚ) * frameDuration,
                 duration := frameDuration,
                 sourceIndex := heldIndex frameCount easing (totalOutputFrames outputDuration)
                   (totalOutputFrames outputDuration - 1) },
         .closeVideoSource, .finalizeOutput] ∧
    ((applySpeedCurveTrace frameCount easing outputDuration).filter isEmitEvent).length =
      totalOutputFrames outputDuration + 1 ∧
    (∃ last : EmittedFrame,
        (resampleEmits frameCount easing (totalOutputFrames outputDuration)).getLast? =
          some last ∧
        last.sourceIndex =
          heldIndex frameCount easing (totalOutputFrames outputDuration)
            (totalOutputFrames outputDuration - 1) ∧
        (totalOutputFrames outputDuration : ℚ) * frameDuration =
          last.timestamp + frameDuration) := by
  have hfc0 : frameCount ≠ 0 := by omega
  have htot0 : totalOutputFrames outputDuration ≠ 0 := by omega
  have htrace : applySpeedCurveTrace frameCount easing outputDuration =
      (resampleEmits frameCount easing (totalOutputFrames outputDuration)).map .emit ++
        [.emit { timestamp := (totalOutputFrames outputDuration : ℚ) * frameDuration,
                 duration := frameDuration,
                 sourceIndex := heldIndex frameCount easing (totalOutputFrames outputDuration)
                   (totalOutputFrames outputDuration - 1) },
         .closeVideoSource, .finalizeOutput] := by
    rw [applySpeedCurveTrace]
    simp only [if_neg hfc0, if_neg htot0]
  refine ⟨htrace, ?_, ?_⟩
  · rw [htrace, List.filter_append, List.filter_map]
    have hall : List.filter (isEmitEvent ∘ PipelineEvent.emit)
        (resampleEmits frameCount easing (totalOutputFrames outputDuration)) =
        resampleEmits frameCount easing (totalOutputFrames outputDuration) := by
      apply List.filter_eq_self.2
      intro a _
      rfl
    rw [hall]
    simp [resampleEmits_length frameCount easing _ hfc, isEmitEvent]
  · have hlen := resampleEmits_length frameCount easing (totalOutputFrames outputDuration) hfc
    have hne : resampleEmits frameCount easing (totalOutputFrames outputDuration) ≠ [] := by
      intro hempty
      rw [hempty] at hlen
      simp at hlen
      omega
    have hgl : (resampleEmits frameCount easing (totalOutputFrames outputDuration)).getLast? =
        (resampleEmits frameCount easing (totalOutputFrames outputDuration))[totalOutputFrames outputDuration - 1]? := by
      rw [List.getLast?_eq_getElem?, hlen]
    have hidx : (resampleEmits frameCount easing
        (totalOutputFrames outputDuration))[totalOutputFrames outputDuration - 1]? =
        some { timestamp := ((totalOutputFrames outputDuration - 1 : ℕ) : ℚ) * frameDuration,
               duration := frameDuration,
               sourceIndex := heldIndex frameCount easing (totalOutputFrames outputDuration)
                 (totalOutputFrames outputDuration - 1) } := by
      rw [resampleEmits, if_neg hfc0, List.getElem?_map,
        List.getElem?_range (by omega)]
      rfl
    refine ⟨_, hgl.trans hidx, rfl, ?_⟩
    have hcast : ((totalOutputFrames outputDuration - 1 : ℕ) : ℚ) =
        (totalOutputFrames outputDuration : ℚ) - 1 := by
      have h1 : 1 ≤ totalOutputFrames outputDuration := htotal
      push_cast [h1]
      ring
    simp only [hcast]
    ring

/-- Witness for `padding_frame_emitted`: one decodable frame, identity
easing, one-second output duration (30 output frames). -/
theorem padding_frame_emitted_witness :
    (1 : ℕ) ≤ 1 ∧ 1 ≤ totalOutputFrames 1 ∧
      (applySpeedCurveTrace 1 id 1 =
        (resampleEmits 1 id (totalOutputFrames 1)).map .emit ++
          [.emit { timestamp := (totalOutputFrames 1 : ℚ) * frameDuration,
                   duration := frameDuration,
                   sourceIndex := heldIndex 1 id (totalOutputFrames 1)
                     (totalOutputFrames 1 - 1) },
           .closeVideoSource, .finalizeOutput] ∧
      ((applySpeedCurveTrace 1 id 1).filter isEmitEvent).length =
        totalOutputFrames 1 + 1 ∧
      (∃ last : EmittedFrame,
          (resampleEmits 1 id (totalOutputFrames 1)).getLast? = some last ∧
          last.sourceIndex =
            heldIndex 1 id (totalOutputFrames 1) (totalOutputFrames 1 - 1) ∧
          (totalOutputFrames 1 : ℚ) * frameDuration = last.timestamp + frameDuration)) := by
  have h1 : 1 ≤ totalOutputFrames 1 := by rw [totalOutputFrames_one]; norm_num
  exact ⟨le_refl 1, h1, padding_frame_emitted 1 id 1 (le_refl 1) h1⟩

/-! ## Strategy A — direct timestamp mapping

Modelled from the spec: the repository contains two divergent resampler
implementations; only the sequential-advance Strategy B variant is among
the source files under review.  Strategy A (spec §4.3) is the direct
timestamp mapping run at an explicit output frame rate:
`outputProgress = i / (totalOutputFrames - 1)` (progress 0 when
`totalOutputFrames == 1`), `sourceProgress = ease(outputProgress)`,
`sourceTimestamp = clamp(sourceProgress * inputDuration, 0, inputDuration - epsilon)`,
with plan length `floor_or_ceil(outputDuration * outputFrameRate)` (here
`ceil`, matching the sibling Strategy B implementation; the two agree on the
exact product `1.5 * 60 = 90`). -/

/-- Modelled from the spec: Strategy A plan length
`totalOutputFrames = ceil(outputDuration * outputFrameRate)`. -/
def strategyATotalOutputFrames (outputDuration rate : ℚ) : ℕ := ⌈outputDuration * rate⌉₊

/-- Modelled from the spec: Strategy A source timestamp for output frame `i`
— `clamp(ease(i/(total-1)) * inputDuration, 0, inputDuration - eps)`. -/
def strategyASourceTimestamp (easing : ℚ → ℚ) (inputDuration eps : ℚ)
    (total i : ℕ) : ℚ :=
  let outputProgress : ℚ := if total = 1 then 0 else (i : ℚ) / ((total : ℚ) - 1)
  max 0 (min (easing outputProgress * inputDuration) (inputDuration - eps))

/-- Below the last output frame, the Strategy A timestamp with identity
easing is the unclamped linear value `5 * i / 89`. -/
theorem strategyA_ts_linear (eps : ℚ) (h2 : eps < 5 / 89) (i : ℕ) (hi : i ≤ 88) :
    strategyASourceTimestamp id 5 eps 90 i = 5 * (i : ℚ) / 89 := by
  rw [strategyASourceTimestamp]
  have h90 : (90 : ℕ) ≠ 1 := by omega
  simp only [if_neg h90, id]
  have hiq : (i : ℚ) ≤ 88 := by exact_mod_cast hi
  have hiq0 : (0 : ℚ) ≤ (i : ℚ) := Nat.cast_nonneg i
  have hden : ((90 : ℕ) : ℚ) - 1 = 89 := by norm_num
  rw [hden]
  have hval : (i : ℚ) / 89 * 5 = 5 * (i : ℚ) / 89 := by ring
  rw [hval]
  have hlt : 5 * (i : ℚ) / 89 ≤ 5 - eps := by
    have : 5 * (i : ℚ) / 89 ≤ 440 / 89 := by linarith
    linarith
  rw [min_eq_left hlt, max_eq_right (by positivity)]

/-- C2 (spec-modelled): for `inputDuration = 5`, `outputDuration = 1.5`,
`outputFrameRate = 60` and the identity easing, Strategy A produces
`totalOutputFrames = 90`; its source-timestamp sequence is strictly
increasing and spans `[0, ~5)`: it starts at `0`, stays strictly below `5`,
and its last value is within `eps` of `5` (for any clamping epsilon
`0 < eps < 5/89`, one source-time step). -/
theorem strategyA_identity_90_frames (eps : ℚ) (h1 : 0 < eps) (h2 : eps < 5 / 89) :
    strategyATotalOutputFrames (3 / 2) 60 = 90 ∧
    (∀ i j : ℕ, i < j → j < 90 →
        strategyASourceTimestamp id 5 eps 90 i < strategyASourceTimestamp id 5 eps 90 j) ∧
    strategyASourceTimestamp id 5 eps 90 0 = 0 ∧
    (∀ i : ℕ, i < 90 →
        0 ≤ strategyASourceTimestamp id 5 eps 90 i ∧
        strategyASourceTimestamp id 5 eps 90 i < 5) ∧
    strategyASourceTimestamp id 5 eps 90 89 = 5 - eps := by
  have hlast : strategyASourceTimestamp id 5 eps 90 89 = 5 - eps := by
    rw [strategyASourceTimestamp]
    have h90 : (90 : ℕ) ≠ 1 := by omega
    simp only [if_neg h90, id]
    have hden : ((90 : ℕ) : ℚ) - 1 = 89 := by norm_num
    rw [hden]
    have hp : ((89 : ℕ) : ℚ) / 89 = 1 := by norm_num
    rw [hp, one_mul]
    have hmin : min (5 : ℚ) (5 - eps) = 5 - eps := min_eq_right (by linarith)
    rw [hmin, max_eq_right (by linarith [lt_trans h2 (by norm_num : (5 : ℚ) / 89 < 5)])]
  refine ⟨by rw [strategyATotalOutputFrames]; norm_num, ?_, ?_, ?_, hlast⟩
  · intro i j hij hj
    have hi88 : i ≤ 88 := by omega
    rw [strategyA_ts_linear eps h2 i hi88]
    by_cases hj88 : j ≤ 88
    · rw [strategyA_ts_linear eps h2 j hj88]
      have : (i : ℚ) < (j : ℚ) := by exact_mod_cast hij
      linarith
    · have hj89 : j = 89 := by omega
      rw [hj89, hlast]
      have hiq : (i : ℚ) ≤ 88 := by exact_mod_cast hi88
      have : 5 * (i : ℚ) / 89 ≤ 440 / 89 := by linarith
      linarith
  · rw [strategyA_ts_linear eps h2 0 (by omega)]
    norm_num
  · intro i hi
    by_cases hi88 : i ≤ 88
    · rw [strategyA_ts_linear eps h2 i hi88]
      have hiq : (i : ℚ) ≤ 88 := by exact_mod_cast hi88
      have hiq0 : (0 : ℚ) ≤ (i : ℚ) := Nat.cast_nonneg i
      constructor
      · positivity
      · linarith
    · have : i = 89 := by omega
      rw [this, hlast]
      constructor
      · linarith [lt_trans h2 (by norm_num : (5 : ℚ) / 89 < 5)]
      · linarith

/-- Witness for `strategyA_identity_90_frames` at `eps = 1/1000`. -/
theorem strategyA_identity_90_frames_witness :
    (0 : ℚ) < 1 / 1000 ∧ (1 : ℚ) / 1000 < 5 / 89 ∧
      (strategyATotalOutputFrames (3 / 2) 60 = 90 ∧
        (∀ i j : ℕ, i < j → j < 90 →
            strategyASourceTimestamp id 5 (1 / 1000) 90 i <
              strategyASourceTimestamp id 5 (1 / 1000) 90 j) ∧
        strategyASourceTimestamp id 5 (1 / 1000) 90 0 = 0 ∧
        (∀ i : ℕ, i < 90 →
            0 ≤ strategyASourceTimestamp id 5 (1 / 1000) 90 i ∧
            strategyASourceTimestamp id 5 (1 / 1000) 90 i < 5) ∧
        strategyASourceTimestamp id 5 (1 / 1000) 90 89 = 5 - 1 / 1000) :=
  ⟨by norm_num, by norm_num,
    strategyA_identity_90_frames (1 / 1000) (by norm_num) (by norm_num)⟩

/-! ## Finalization orchestrator (`useFinalizeVideo.ts`, `finalizeVideos`)

Blobs, audio buffers and the underlying engine operations are abstract: a
`Blob` is an abstract handle, and the engine is a record of the outcomes of
`remuxWithNewAudio` (the remux throwing or returning `null` is `none`),
`prepareAudio` (a thrown error — caught and logged, the pipeline continues
without audio — or a `null` result is `none`), `stitchVideos` (`null` is
`none`, which the orchestrator turns into the thrown "Failed to stitch
videos"), and `applySpeedCurve` per segment (`null` is `none`, which aborts
the call).  JS `Map`s are association lists with `size` = entry count. -/

/-- An abstract blob handle. -/
abbrev Blob : Type := ℕ

/-- An abstract prepared-audio result (`{buffer, duration}`). -/
abbrev AudioData : Type := ℕ

/-- A timeline segment (`TransitionVideo` in `lib/types.ts`, restricted to
the fields `finalizeVideos` reads). -/
structure TransitionVideo where
  id : ℕ
  url : Bool
  loading : Bool
  duration : Option ℚ
  easingPreset : Option String
  useCustomEasing : Option Bool
  customBezier : Option (List ℚ)
  fileSize : Option ℕ
  cachedBlobSize : Option ℕ
deriving DecidableEq

/-- `DEFAULT_OUTPUT_DURATION = 1.5` (`lib/speed-curve-config.ts`). -/
def DEFAULT_OUTPUT_DURATION : ℚ := 3 / 2

/-- `DEFAULT_EASING = 'easeInOutSine'`. -/
def DEFAULT_EASING : String := "easeInOutSine"

/-- `videosWithUrls = transitionVideos.filter((v) => v.url && !v.loading)`. -/
def readyVideos (videos : List TransitionVideo) : List TransitionVideo :=
  videos.filter fun v => v.url && !v.loading

/-- One record of `computeConfigHash`'s `relevantData` (the JSON string is
modelled by the list of these records). -/
structure ConfigEntry where
  id : ℕ
  duration : ℚ
  easingPreset : String
  useCustomEasing : Bool
  customBezier : List ℚ
  sourceSize : ℕ
deriving DecidableEq

/-- `computeConfigHash`: per ready segment its identity, target duration,
easing selection and source-size proxy. -/
def computeConfigHash (videos : List TransitionVideo) : List ConfigEntry :=
  (readyVideos videos).map fun v =>
    { id := v.id, duration := v.duration.getD DEFAULT_OUTPUT_DURATION,
      easingPreset := v.easingPreset.getD DEFAULT_EASING,
      useCustomEasing := v.useCustomEasing.getD false,
      customBezier := v.customBezier.getD [],
      sourceSize := (v.fileSize.or v.cachedBlobSize).getD 0 }

/-- The per-segment blob cache (`SpeedCurvedBlobCache`): a `Map` from
segment identity to its cached encoded clip, plus the config hash. -/
structure SpeedCurvedBlobCache where
  blobs : List (ℕ × Blob)
  configHash : List ConfigEntry
deriving DecidableEq

/-- `Map.prototype.get` on the modelled blob map. -/
def mapGet (m : List (ℕ × Blob)) (k : ℕ) : Option Blob :=
  (m.find? fun p => p.1 == k).map (·.2)

/-- The re-render reason carried by the finalize context. -/
inductive FinalizeReason where
  | segmentChange
  | audioFile
  | audioFade
deriving DecidableEq

/-- The finalize context (`FinalizeContext` in `lib/types.ts`, restricted to
the fields `finalizeVideos` reads; `audioSettings` is reduced to presence,
and `quality` only forwards to the abstract engine). -/
structure FinalizeContext where
  reason : FinalizeReason
  previousFinalVideo : Option Blob
  audioBlob : Option Blob
  audioSettingsPresent : Bool
  cachedBlobs : Option SpeedCurvedBlobCache
deriving DecidableEq

/-- Outcomes of the engine operations invoked by `finalizeVideos`. -/
structure FinalizeEngine where
  remux : Option Blob
  prepareAudio : Option AudioData
  stitch : List Blob → Option AudioData → Option Blob
  applyCurve : TransitionVideo → Option Blob

/-- The three pipelines of the orchestrator. -/
inductive FinalizePath where
  | fast
  | medium
  | full
deriving DecidableEq

/-- The observable outcome of a `finalizeVideos` call: an error state
carrying the thrown message, or a final blob plus the returned cache,
tagged with the pipeline that produced it. -/
inductive FinalizeOutcome where
  | err (message : String)
  | ok (path : FinalizePath) (finalBlob : Blob) (cache : SpeedCurvedBlobCache)
deriving DecidableEq

/-- The medium path's cached-blob gathering loop: walk the ready segments in
order, collecting cache hits, stopping at the first miss (`break`). -/
def collectCached (cache : SpeedCurvedBlobCache) :
    List TransitionVideo → List Blob
  | [] => []
  | v :: rest =>
    match mapGet cache.blobs v.id with
    | some b => b :: collectCached cache rest
    | none => []

/-- `transitionMap.get(video.id) ?? video`: the segment metadata lookup of
the full path.  A JS `Map` built from duplicate keys keeps the last entry,
hence the reversed search. -/
def segmentMetadata (videos : List TransitionVideo) (v : TransitionVideo) :
    TransitionVideo :=
  (videos.reverse.find? fun s => s.id == v.id).getD v

/-- The full path's per-segment speed-curve loop: apply the curve to every
ready segment in order, recording `(id, blob)` cache entries; the first
failure aborts the call (`none`). -/
def applyCurves (videos : List TransitionVideo) (eng : FinalizeEngine) :
    List TransitionVideo → Option (List (ℕ × Blob))
  | [] => some []
  | v :: rest =>
    match eng.applyCurve (segmentMetadata videos v) with
    | some b => (applyCurves videos eng rest).map ((v.id, b) :: ·)
    | none => none

/-- The audio preparation step shared by the medium and full paths: only run
when an audio blob is present; a thrown error is caught and the pipeline
continues without audio. -/
def audioStep (ctx : FinalizeContext) (eng : FinalizeEngine) : Option AudioData :=
  if ctx.audioBlob.isSome then eng.prepareAudio else none

/-- The full path (apply speed curves per segment, prepare audio, stitch,
rebuild the cache). -/
def fullPath (videos : List TransitionVideo) (ctx : FinalizeContext)
    (eng : FinalizeEngine) : FinalizeOutcome :=
  match applyCurves videos eng (readyVideos videos) with
  | none => .err "Failed to apply speed curve"
  | some entries =>
    match eng.stitch (entries.map (·.2)) (audioStep ctx eng) with
    | some finalBlob =>
      .ok .full finalBlob { blobs := entries, configHash := computeConfigHash videos }
    | none => .err "Failed to stitch videos"

/-- The continuation after the fast path (the medium-path guard and body,
falling back to the full path). -/
def afterFastPath (videos : List TransitionVideo) (ctx : FinalizeContext)
    (eng : FinalizeEngine) : FinalizeOutcome :=
  match ctx.cachedBlobs with
  | some cache =>
    if (ctx.reason == .audioFile || ctx.reason == .audioFade) &&
        (readyVideos videos).length ≤ cache.blobs.length then
      let gathered := collectCached cache (readyVideos videos)
      if gathered.length = (readyVideos videos).length then
        match eng.stitch gathered (audioStep ctx eng) with
        | some finalBlob => .ok .medium finalBlob cache
        | none => .err "Failed to stitch videos"
      else fullPath videos ctx eng
    else fullPath videos ctx eng
  | none => fullPath videos ctx eng

/-- Whether the remux-only fast path is attempted (`reason === 'audio-fade'`
and previous final video, audio blob, audio settings and cache all
present). -/
def fastPathGuard (ctx : FinalizeContext) : Bool :=
  (ctx.reason == .audioFade) && ctx.previousFinalVideo.isSome &&
    ctx.audioBlob.isSome && ctx.audioSettingsPresent && ctx.cachedBlobs.isSome

/-- `finalizeVideos`: input validation, then the fast remux-only path (any
remux failure falls through), then the medium re-stitch path, then the full
pipeline. -/
def finalizeVideos (videos : List TransitionVideo) (ctx : FinalizeContext)
    (eng : FinalizeEngine) : FinalizeOutcome :=
  if videos.isEmpty then .err "No videos to finalize"
  else if (readyVideos videos).isEmpty then .err "No successfully loaded videos"
  else if fastPathGuard ctx then
    match ctx.cachedBlobs, eng.remux with
    | some cache, some remuxedBlob => .ok .fast remuxedBlob cache
    | _, _ => afterFastPath videos ctx eng
  else afterFastPath videos ctx eng

/-- The routing function of the orchestrator ("entry decision"): which
pipeline a call with the given context and remux outcome runs. -/
def entryDecision (videos : List TransitionVideo) (ctx : FinalizeContext)
    (remuxSucceeds : Bool) : FinalizePath :=
  if fastPathGuard ctx && remuxSucceeds then .fast
  else
    match ctx.cachedBlobs with
    | some cache =>
      if (ctx.reason == .audioFile || ctx.reason == .audioFade) &&
          (readyVideos videos).length ≤ cache.blobs.length &&
          (collectCached cache (readyVideos videos)).length =
            (readyVideos videos).length then .medium
      else .full
    | none => .full

/-- The gathering loop collects one blob per ready segment exactly when
every ready segment id is present in the cache. -/
theorem collectCached_complete (cache : SpeedCurvedBlobCache) :
    ∀ l : List TransitionVideo,
      ((collectCached cache l).length = l.length ↔
        ∀ v ∈ l, (mapGet cache.blobs v.id).isSome)
  | [] => by simp [collectCached]
  | v :: rest => by
    rw [collectCached]
    cases h : mapGet cache.blobs v.id with
    | some b =>
      simp only [List.length_cons, Nat.add_left_inj, List.mem_cons]
      rw [collectCached_complete cache rest]
      constructor
      · intro hall w hw
        cases hw with
        | inl he => rw [he, h]; rfl
        | inr hm => exact hall w hm
      · intro hall w hw
        exact hall w (Or.inr hw)
    | none =>
      simp only [List.length_nil, List.length_cons]
      constructor
      · intro habs
        omega
      · intro hall
        have := hall v (List.mem_cons_self v rest)
        rw [h] at this
        exact absurd this (by simp)

/-- On a fully covered cache, the gathered blobs are exactly the per-segment
cache lookups, in segment order. -/
theorem collectCached_getElem (cache : SpeedCurvedBlobCache) :
    ∀ (l : List TransitionVideo),
      (∀ v ∈ l, (mapGet cache.blobs v.id).isSome) →
      ∀ i : ℕ, (collectCached cache l)[i]? = (l[i]?).bind fun v => mapGet cache.blobs v.id
  | [], _, i => by simp [collectCached]
  | v :: rest, hall, i => by
    rw [collectCached]
    cases h : mapGet cache.blobs v.id with
    | some b =>
      cases i with
      | zero => simp [h]
      | succ n =>
        simp only [List.getElem?_cons_succ]
        exact collectCached_getElem cache rest
          (fun w hw => hall w (List.mem_cons_of_mem v hw)) n
    | none =>
      have := hall v (List.mem_cons_self v rest)
      rw [h] at this
      exact absurd this (by simp)

/-- When the fast path does not complete (its guard fails or the remux
throws), `finalizeVideos` runs exactly the fall-through continuation. -/
theorem finalizeVideos_fallthrough (videos : List TransitionVideo)
    (ctx : FinalizeContext) (eng : FinalizeEngine)
    (hv : videos ≠ []) (hr : readyVideos videos ≠ [])
    (hfall : fastPathGuard ctx = false ∨ eng.remux = none) :
    finalizeVideos videos ctx eng = afterFastPath videos ctx eng := by
  rw [finalizeVideos, if_neg (by simp [hv]), if_neg (by simp [hr])]
  cases hfall with
  | inl hguard => rw [if_neg (by simp [hguard])]
  | inr hremux =>
    by_cases hguard : fastPathGuard ctx
    · rw [if_pos hguard, hremux]
      cases ctx.cachedBlobs <;> rfl
    · rw [if_neg hguard]

/-- The medium-path body, given an audio-change reason and a fully covering
cache. -/
theorem afterFastPath_medium (videos : List TransitionVideo)
    (ctx : FinalizeContext) (eng : FinalizeEngine) (cache : SpeedCurvedBlobCache)
    (hcache : ctx.cachedBlobs = some cache)
    (hreason : ctx.reason = .audioFile ∨ ctx.reason = .audioFade)
    (hlen : (readyVideos videos).length ≤ cache.blobs.length)
    (hcover : ∀ v ∈ readyVideos videos, (mapGet cache.blobs v.id).isSome) :
    afterFastPath videos ctx eng =
      match eng.stitch (collectCached cache (readyVideos videos)) (audioStep ctx eng) with
      | some finalBlob => .ok .medium finalBlob cache
      | none => .err "Failed to stitch videos" := by
  simp only [afterFastPath, hcache]
  have hcond : ((ctx.reason == FinalizeReason.audioFile ||
      ctx.reason == FinalizeReason.audioFade) &&
      ((readyVideos videos).length ≤ cache.blobs.length : Bool)) = true := by
    cases hreason with
    | inl h => simp [h, hlen]
    | inr h => simp [h, hlen]
  rw [if_pos hcond,
    if_pos ((collectCached_complete cache (readyVideos videos)).2 hcover)]

/-- C3: with the fast path falling through, the entry decision takes the
medium path exactly when the re-render reason is an audio change and the
cache covers every current segment (size at least the segment count, an
entry for every ready segment id); on that path the outcome is the stitch
of the per-segment cached clips in segment order with the prepared audio,
the existing cache is returned, and the per-segment speed-curve resample is
not re-run (the outcome is independent of the speed-curve operation). -/
theorem medium_path_selection (videos : List TransitionVideo)
    (ctx : FinalizeContext) (eng : FinalizeEngine) (cache : SpeedCurvedBlobCache)
    (hv : videos ≠ []) (hr : readyVideos videos ≠ [])
    (hfall : fastPathGuard ctx = false ∨ eng.remux = none)
    (hcache : ctx.cachedBlobs = some cache) :
    (entryDecision videos ctx eng.remux.isSome = .medium ↔
      ((ctx.reason = .audioFile ∨ ctx.reason = .audioFade) ∧
        (readyVideos videos).length ≤ cache.blobs.length ∧
        ∀ v ∈ readyVideos videos, (mapGet cache.blobs v.id).isSome)) ∧
    (((ctx.reason = .audioFile ∨ ctx.reason = .audioFade) ∧
        (readyVideos videos).length ≤ cache.blobs.length ∧
        (∀ v ∈ readyVideos videos, (mapGet cache.blobs v.id).isSome)) →
      (finalizeVideos videos ctx eng =
          match eng.stitch (collectCached cache (readyVideos videos)) (audioStep ctx eng) with
          | some finalBlob => .ok .medium finalBlob cache
          | none => .err "Failed to stitch videos") ∧
      (∀ i : ℕ, (collectCached cache (readyVideos videos))[i]? =
          ((readyVideos videos)[i]?).bind fun v => mapGet cache.blobs v.id) ∧
      (∀ f g : TransitionVideo → Option Blob,
          finalizeVideos videos ctx { eng with applyCurve := f } =
            finalizeVideos videos ctx { eng with applyCurve := g })) := by
  have hnofast : (fastPathGuard ctx && eng.remux.isSome) = false := by
    cases hfall with
    | inl h => simp [h]
    | inr h => simp [h]
  constructor
  · simp only [entryDecision, hnofast, Bool.false_eq_true, if_false, hcache]
    split_ifs with hcond
    · simp only [true_iff]
      constructor
      · simp only [Bool.and_eq_true, Bool.or_eq_true, beq_iff_eq,
          decide_eq_true_eq] at hcond
        exact hcond.1.1
      constructor
      · simp only [Bool.and_eq_true, Bool.or_eq_true, beq_iff_eq,
          decide_eq_true_eq] at hcond
        exact hcond.1.2
      · refine (collectCached_complete cache (readyVideos videos)).1 ?_
        simp only [Bool.and_eq_true, decide_eq_true_eq] at hcond
        exact hcond.2
    · simp only [reduceCtorEq, false_iff]
      intro ⟨h1, h2, h3⟩
      apply hcond
      have hc3 := (collectCached_complete cache (readyVideos videos)).2 h3
      cases h1 with
      | inl h => simp [h, h2, hc3]
      | inr h => simp [h, h2, hc3]
  · intro ⟨h1, h2, h3⟩
    refine ⟨?_, collectCached_getElem cache (readyVideos videos) h3, ?_⟩
    · rw [finalizeVideos_fallthrough videos ctx eng hv hr hfall]
      exact afterFastPath_medium videos ctx eng cache hcache h1 h2 h3
    · intro f g
      have hfallf : fastPathGuard ctx = false ∨
          ({ eng with applyCurve := f } : FinalizeEngine).remux = none := hfall
      have hfallg : fastPathGuard ctx = false ∨
          ({ eng with applyCurve := g } : FinalizeEngine).remux = none := hfall
      rw [finalizeVideos_fallthrough videos ctx _ hv hr hfallf,
        finalizeVideos_fallthrough videos ctx _ hv hr hfallg,
        afterFastPath_medium videos ctx _ cache hcache h1 h2 h3,
        afterFastPath_medium videos ctx _ cache hcache h1 h2 h3]
      rfl

/-- A one-segment timeline for concrete instantiation. -/
def c3Videos : List TransitionVideo :=
  [{ id := 1, url := true, loading := false, duration := none, easingPreset := none,
     useCustomEasing := none, customBezier := none, fileSize := none,
     cachedBlobSize := none }]

/-- A cache covering segment 1. -/
def c3Cache : SpeedCurvedBlobCache := { blobs := [(1, 5)], configHash := [] }

/-- An audio-file-change context carrying `c3Cache`. -/
def c3Context : FinalizeContext :=
  { reason := .audioFile, previousFinalVideo := none, audioBlob := none,
    audioSettingsPresent := false, cachedBlobs := some c3Cache }

/-- An engine whose stitcher succeeds and whose speed-curve step fails. -/
def c3Engine : FinalizeEngine :=
  { remux := none, prepareAudio := none, stitch := fun _ _ => some 7,
    applyCurve := fun _ => none }

/-- Witness for `medium_path_selection` at the concrete one-segment
instance. -/
theorem medium_path_selection_witness :
    c3Videos ≠ [] ∧ readyVideos c3Videos ≠ [] ∧
      (fastPathGuard c3Context = false ∨ c3Engine.remux = none) ∧
      c3Context.cachedBlobs = some c3Cache ∧
      ((entryDecision c3Videos c3Context c3Engine.remux.isSome = .medium ↔
        ((c3Context.reason = .audioFile ∨ c3Context.reason = .audioFade) ∧
          (readyVideos c3Videos).length ≤ c3Cache.blobs.length ∧
          ∀ v ∈ readyVideos c3Videos, (mapGet c3Cache.blobs v.id).isSome)) ∧
      (((c3Context.reason = .audioFile ∨ c3Context.reason = .audioFade) ∧
          (readyVideos c3Videos).length ≤ c3Cache.blobs.length ∧
          (∀ v ∈ readyVideos c3Videos, (mapGet c3Cache.blobs v.id).isSome)) →
        (finalizeVideos c3Videos c3Context c3Engine =
            match c3Engine.stitch (collectCached c3Cache (readyVideos c3Videos))
                (audioStep c3Context c3Engine) with
            | some finalBlob => .ok .medium finalBlob c3Cache
            | none => .err "Failed to stitch videos") ∧
        (∀ i : ℕ, (collectCached c3Cache (readyVideos c3Videos))[i]? =
            ((readyVideos c3Videos)[i]?).bind fun v => mapGet c3Cache.blobs v.id) ∧
        (∀ f g : TransitionVideo → Option Blob,
            finalizeVideos c3Videos c3Context { c3Engine with applyCurve := f } =
              finalizeVideos c3Videos c3Context { c3Engine with applyCurve := g }))) := by
  refine ⟨by simp [c3Videos], by decide, Or.inl (by decide), rfl, ?_⟩
  exact medium_path_selection c3Videos c3Context c3Engine c3Cache
    (by simp [c3Videos]) (by decide) (Or.inl (by decide)) rfl

/-- C4: when the remux-only fast path is attempted (its guard holds) and the
remux throws, the call runs exactly the fall-through continuation — the
remux error is never the call's outcome — and if the cache fully covers the
current segments and the stitcher succeeds, the call returns a valid result
via the medium path, preserving the existing cache. -/
theorem remux_failure_falls_through (videos : List TransitionVideo)
    (ctx : FinalizeContext) (eng : FinalizeEngine)
    (hv : videos ≠ []) (hr : readyVideos videos ≠ [])
    (hguard : fastPathGuard ctx = true) (hremux : eng.remux = none) :
    finalizeVideos videos ctx eng = afterFastPath videos ctx eng ∧
    (∀ cache : SpeedCurvedBlobCache, ctx.cachedBlobs = some cache →
      (readyVideos videos).length ≤ cache.blobs.length →
      (∀ v ∈ readyVideos videos, (mapGet cache.blobs v.id).isSome) →
      (∀ (bs : List Blob) (a : Option AudioData), (eng.stitch bs a).isSome) →
      ∃ finalBlob : Blob,
        finalizeVideos videos ctx eng = .ok .medium finalBlob cache) := by
  have hfall := finalizeVideos_fallthrough videos ctx eng hv hr (Or.inr hremux)
  refine ⟨hfall, ?_⟩
  intro cache hcache hlen hcover hstitch
  have hreason : ctx.reason = .audioFade := by
    simp only [fastPathGuard, Bool.and_eq_true, beq_iff_eq] at hguard
    exact hguard.1.1.1.1
  rw [hfall, afterFastPath_medium videos ctx eng cache hcache (Or.inr hreason)
    hlen hcover]
  obtain ⟨finalBlob, hb⟩ := Option.isSome_iff_exists.1
    (hstitch (collectCached cache (readyVideos videos)) (audioStep ctx eng))
  rw [hb]
  exact ⟨finalBlob, rfl⟩

/-- An audio-fade context with previous final video, audio and settings all
present, carrying `c3Cache`. -/
def c4Context : FinalizeContext :=
  { reason := .audioFade, previousFinalVideo := some 3, audioBlob := some 4,
    audioSettingsPresent := true, cachedBlobs := some c3Cache }

/-- An engine whose remux throws and whose stitcher succeeds. -/
def c4Engine : FinalizeEngine :=
  { remux := none, prepareAudio := some 2, stitch := fun _ _ => some 9,
    applyCurve := fun _ => none }

/-- Witness for `remux_failure_falls_through` at the concrete one-segment
instance. -/
theorem remux_failure_falls_through_witness :
    c3Videos ≠ [] ∧ readyVideos c3Videos ≠ [] ∧
      fastPathGuard c4Context = true ∧ c4Engine.remux = none ∧
      (finalizeVideos c3Videos c4Context c4Engine =
          afterFastPath c3Videos c4Context c4Engine ∧
        (∀ cache : SpeedCurvedBlobCache, c4Context.cachedBlobs = some cache →
          (readyVideos c3Videos).length ≤ cache.blobs.length →
          (∀ v ∈ readyVideos c3Videos, (mapGet cache.blobs v.id).isSome) →
          (∀ (bs : List Blob) (a : Option AudioData), (c4Engine.stitch bs a).isSome) →
          ∃ finalBlob : Blob,
            finalizeVideos c3Videos c4Context c4Engine =
              .ok .medium finalBlob cache)) := by
  refine ⟨by simp [c3Videos], by decide, by decide, rfl, ?_⟩
  exact remux_failure_falls_through c3Videos c4Context c4Engine
    (by simp [c3Videos]) (by decide) (by decide) rfl

/-! ## Audio fades (`applyFades`)

The repository carries two textually identical copies of `applyFades` (in
the audio remux hook, options required, and in the audio mixing hook,
options optional); both are embedded here once, with optional options.
An `AudioBuffer` is modelled by its sample rate, its `length` property and
its per-channel sample lists (the Web Audio API guarantees every channel
has exactly `length` samples).  The in-place gain multiplication is
modelled functionally.  The bounds guard inside the fade-out loop
(`sampleIndex < 0 || sampleIndex >= totalSamples`) never fires because both
fade sample counts are at most `totalSamples`; the fade-out gain at
absolute sample index `s = totalSamples - fadeOutSamples + i` is
`(fadeOutSamples - i) / fadeOutSamples = (totalSamples - s) / fadeOutSamples`. -/

/-- Model of a Web Audio `AudioBuffer`. -/
structure AudioBufferModel where
  sampleRate : ℚ
  length : ℕ
  channels : List (List ℚ)
deriving DecidableEq

/-- `AudioProcessingOptions` (`lib/types.ts`): fade durations in seconds. -/
structure AudioProcessingOptions where
  fadeIn : ℚ
  fadeOut : ℚ
deriving DecidableEq

/-- The fade sample counts computed by `applyFades`: each requested count is
`min(totalSamples, floor(fadeSeconds * sampleRate))`; when their sum
exceeds `totalSamples` both are scaled by
`totalSamples / max(1, fadeInSamples + fadeOutSamples)` and floored. -/
def fadeSampleCounts (buffer : AudioBufferModel)
    (options : AudioProcessingOptions) : ℕ × ℕ :=
  let totalSamples := buffer.length
  let fadeInSamples := min totalSamples ⌊max 0 options.fadeIn * buffer.sampleRate⌋₊
  let fadeOutSamples := min totalSamples ⌊max 0 options.fadeOut * buffer.sampleRate⌋₊
  if totalSamples < fadeInSamples + fadeOutSamples then
    let scale : ℚ := (totalSamples : ℚ) / max 1 (fadeInSamples + fadeOutSamples : ℕ)
    (⌊(fadeInSamples : ℚ) * scale⌋₊, ⌊(fadeOutSamples : ℚ) * scale⌋₊)
  else (fadeInSamples, fadeOutSamples)

/-- The gain applied to sample `i` of a channel: the linear fade-in ramp
`i / fadeInSamples` over the first `fadeInSamples` samples, then the linear
fade-out ramp `(totalSamples - i) / fadeOutSamples` over the last
`fadeOutSamples` samples. -/
def fadeGain (fadeInSamples fadeOutSamples totalSamples : ℕ) (i : ℕ) (x : ℚ) : ℚ :=
  let x1 := if 0 < fadeInSamples ∧ i < fadeInSamples then
      x * ((i : ℚ) / fadeInSamples)
    else x
  if 0 < fadeOutSamples ∧ totalSamples - fadeOutSamples ≤ i ∧ i < totalSamples then
    x1 * (((totalSamples : ℚ) - (i : ℚ)) / fadeOutSamples)
  else x1

/-- `applyFades`: no-op without options, with both (clamped) fade durations
zero, or on an empty buffer; otherwise apply the two linear ramps with the
computed fade sample counts to every channel. -/
def applyFades (buffer : AudioBufferModel)
    (options : Option AudioProcessingOptions) : AudioBufferModel :=
  match options with
  | none => buffer
  | some o =>
    if max 0 o.fadeIn = 0 ∧ max 0 o.fadeOut = 0 then buffer
    else if buffer.length = 0 then buffer
    else
      let counts := fadeSampleCounts buffer o
      { buffer with
        channels := buffer.channels.map fun c =>
          c.mapIdx fun i x => fadeGain counts.1 counts.2 buffer.length i x }

/-- C9: when the requested fade-in and fade-out sample counts (each capped
individually at the buffer length) together exceed the total number of
samples, both are scaled by the same factor `totalSamples / (a + b)` (and
floored), so the two ramps together never cover more than the whole buffer;
when their sum fits, each fade keeps exactly its requested length.  The
final conjunct ties the counts to `applyFades`: whenever the fades are
actually applied, the ramps use exactly these counts. -/
theorem fade_counts_proportional (buffer : AudioBufferModel)
    (o : AudioProcessingOptions) (a b : ℕ)
    (ha : a = min buffer.length ⌊max 0 o.fadeIn * buffer.sampleRate⌋₊)
    (hb : b = min buffer.length ⌊max 0 o.fadeOut * buffer.sampleRate⌋₊) :
    (buffer.length < a + b →
      fadeSampleCounts buffer o =
        (⌊(a : ℚ) * ((buffer.length : ℚ) / ((a + b : ℕ) : ℚ))⌋₊,
          ⌊(b : ℚ) * ((buffer.length : ℚ) / ((a + b : ℕ) : ℚ))⌋₊) ∧
      (fadeSampleCounts buffer o).1 + (fadeSampleCounts buffer o).2 ≤ buffer.length) ∧
    (a + b ≤ buffer.length → fadeSampleCounts buffer o = (a, b)) ∧
    (¬(max 0 o.fadeIn = 0 ∧ max 0 o.fadeOut = 0) → buffer.length ≠ 0 →
      applyFades buffer (some o) =
        { buffer with
          channels := buffer.channels.map fun c =>
            c.mapIdx fun i x =>
              fadeGain (fadeSampleCounts buffer o).1 (fadeSampleCounts buffer o).2
                buffer.length i x }) := by
  subst ha hb
  refine ⟨?_, ?_, ?_⟩
  · intro hlt
    set a := min buffer.length ⌊max 0 o.fadeIn * buffer.sampleRate⌋₊ with ha'
    set b := min buffer.length ⌊max 0 o.fadeOut * buffer.sampleRate⌋₊ with hb'
    have hab1 : 1 ≤ a + b := by omega
    have hmax : max 1 (a + b) = a + b := Nat.max_eq_right hab1
    have hcounts : fadeSampleCounts buffer o =
        (⌊(a : ℚ) * ((buffer.length : ℚ) / ((a + b : ℕ) : ℚ))⌋₊,
          ⌊(b : ℚ) * ((buffer.length : ℚ) / ((a + b : ℕ) : ℚ))⌋₊) := by
      rw [fadeSampleCounts]
      simp only [← ha', ← hb', if_pos hlt, hmax]
    refine ⟨hcounts, ?_⟩
    rw [hcounts]
    have habQ : (a : ℚ) + (b : ℚ) ≠ 0 := by
      have : (0 : ℚ) < (a : ℚ) + (b : ℚ) := by exact_mod_cast (by omega : 0 < a + b)
      exact this.ne'
    have hsum : (a : ℚ) * ((buffer.length : ℚ) / ((a + b : ℕ) : ℚ)) +
        (b : ℚ) * ((buffer.length : ℚ) / ((a + b : ℕ) : ℚ)) = (buffer.length : ℚ) := by
      push_cast
      field_simp
      ring
    have hx : (0 : ℚ) ≤ (a : ℚ) * ((buffer.length : ℚ) / ((a + b : ℕ) : ℚ)) := by
      positivity
    have hy : (0 : ℚ) ≤ (b : ℚ) * ((buffer.length : ℚ) / ((a + b : ℕ) : ℚ)) := by
      positivity
    have hfx := Nat.floor_le hx
    have hfy := Nat.floor_le hy
    have hcast : ((⌊(a : ℚ) * ((buffer.length : ℚ) / ((a + b : ℕ) : ℚ))⌋₊ +
        ⌊(b : ℚ) * ((buffer.length : ℚ) / ((a + b : ℕ) : ℚ))⌋₊ : ℕ) : ℚ) ≤
        (buffer.length : ℚ) := by
      push_cast
      push_cast at hfx hfy hsum
      linarith
    exact_mod_cast hcast
  · intro hle
    rw [fadeSampleCounts]
    simp only [if_neg (by omega : ¬ buffer.length <
      min buffer.length ⌊max 0 o.fadeIn * buffer.sampleRate⌋₊ +
        min buffer.length ⌊max 0 o.fadeOut * buffer.sampleRate⌋₊)]
  · intro hz hlen
    rw [applyFades, if_neg hz, if_neg hlen]

/-- A ten-sample mono buffer at 10 samples/second. -/
def c9Buffer : AudioBufferModel :=
  { sampleRate := 10, length := 10,
    channels := [[1, 1, 1, 1, 1, 1, 1, 1, 1, 1]] }

/-- Fade settings requesting 0.7 s in and 0.8 s out (7 + 8 > 10 samples). -/
def c9Options : AudioProcessingOptions := { fadeIn := 7 / 10, fadeOut := 8 / 10 }

/-- Witness for `fade_counts_proportional`: requested counts 7 and 8 exceed
the 10-sample buffer and are scaled to `⌊7·(10/15)⌋ = 4` and
`⌊8·(10/15)⌋ = 5`, which fit. -/
theorem fade_counts_proportional_witness :
    (7 : ℕ) = min c9Buffer.length ⌊max 0 c9Options.fadeIn * c9Buffer.sampleRate⌋₊ ∧
    (8 : ℕ) = min c9Buffer.length ⌊max 0 c9Options.fadeOut * c9Buffer.sampleRate⌋₊ ∧
    c9Buffer.length < 7 + 8 ∧
    fadeSampleCounts c9Buffer c9Options =
      (⌊(7 : ℚ) * ((c9Buffer.length : ℚ) / (((7 + 8 : ℕ)) : ℚ))⌋₊,
        ⌊(8 : ℚ) * ((c9Buffer.length : ℚ) / (((7 + 8 : ℕ)) : ℚ))⌋₊) ∧
    (fadeSampleCounts c9Buffer c9Options).1 + (fadeSampleCounts c9Buffer c9Options).2 ≤
      c9Buffer.length := by
  have ha : (7 : ℕ) = min c9Buffer.length ⌊max 0 c9Options.fadeIn * c9Buffer.sampleRate⌋₊ := by
    rw [c9Buffer, c9Options]
    norm_num
  have hb : (8 : ℕ) = min c9Buffer.length ⌊max 0 c9Options.fadeOut * c9Buffer.sampleRate⌋₊ := by
    rw [c9Buffer, c9Options]
    norm_num
  have hlt : c9Buffer.length < 7 + 8 := by rw [c9Buffer]; norm_num
  have h := (fade_counts_proportional c9Buffer c9Options 7 8 ha hb).1 hlt
  exact ⟨ha, hb, hlt, h.1, h.2⟩

/-- C10: applying fades leaves every sample outside the two fade windows
untouched — for every channel, every index at or past `fadeInSamples` and
strictly before `totalSamples - fadeOutSamples` keeps its original value —
and the buffer is returned unchanged when both fade durations are zero,
when the buffer has zero samples, or when no options are given. -/
theorem fades_preserve_interior (buffer : AudioBufferModel)
    (o : AudioProcessingOptions) :
    (∀ ch i : ℕ, (fadeSampleCounts buffer o).1 ≤ i →
        i + (fadeSampleCounts buffer o).2 < buffer.length →
        (((applyFades buffer (some o)).channels[ch]?).bind fun chData => chData[i]?) =
          ((buffer.channels[ch]?).bind fun chData => chData[i]?)) ∧
    (o.fadeIn = 0 → o.fadeOut = 0 → applyFades buffer (some o) = buffer) ∧
    (buffer.length = 0 → applyFades buffer (some o) = buffer) ∧
    applyFades buffer none = buffer := by
  refine ⟨?_, ?_, ?_, rfl⟩
  · intro ch i hfi hfo
    rw [applyFades]
    split_ifs with hz hlen
    · rfl
    · rfl
    · simp only [List.getElem?_map]
      cases hc : buffer.channels[ch]? with
      | none => rfl
      | some chData =>
        simp only [Option.map_some', Option.some_bind, List.getElem?_mapIdx]
        cases hci : chData[i]? with
        | none => rfl
        | some x =>
          simp only [Option.map_some', Option.some.injEq]
          rw [fadeGain]
          have hnotin : ¬(0 < (fadeSampleCounts buffer o).1 ∧
              i < (fadeSampleCounts buffer o).1) := by
            intro hand
            omega
          have hnotout : ¬(0 < (fadeSampleCounts buffer o).2 ∧
              buffer.length - (fadeSampleCounts buffer o).2 ≤ i ∧
              i < buffer.length) := by
            intro hand
            omega
          simp only [if_neg hnotin, if_neg hnotout]
  · intro h1 h2
    rw [applyFades]
    rw [if_pos ⟨by rw [h1]; simp, by rw [h2]; simp⟩]
  · intro hlen
    rw [applyFades]
    split_ifs with h1
    · rfl
    · rfl

/-- Witness for `fades_preserve_interior`: on the concrete ten-sample
buffer with scaled fade counts `(4, 5)`, sample 4 of channel 0 keeps its
original value. -/
theorem fades_preserve_interior_witness :
    (fadeSampleCounts c9Buffer c9Options).1 ≤ 4 ∧
      4 + (fadeSampleCounts c9Buffer c9Options).2 < c9Buffer.length ∧
      (((applyFades c9Buffer (some c9Options)).channels[0]?).bind fun chData => chData[4]?) =
        ((c9Buffer.channels[0]?).bind fun chData => chData[4]?) ∧
      applyFades c9Buffer none = c9Buffer := by
  have hcounts : fadeSampleCounts c9Buffer c9Options = (4, 5) := by
    have ha : (7 : ℕ) = min c9Buffer.length
        ⌊max 0 c9Options.fadeIn * c9Buffer.sampleRate⌋₊ := by
      rw [c9Buffer, c9Options]
      norm_num
    have hb : (8 : ℕ) = min c9Buffer.length
        ⌊max 0 c9Options.fadeOut * c9Buffer.sampleRate⌋₊ := by
      rw [c9Buffer, c9Options]
      norm_num
    have h := ((fade_counts_proportional c9Buffer c9Options 7 8 ha hb).1
      (by rw [c9Buffer]; norm_num)).1
    rw [h, c9Buffer]
    have h4 : (⌊(7 : ℚ) * ((10 : ℕ) / ((7 + 8 : ℕ) : ℚ))⌋₊ : ℕ) = 4 := by
      rw [Nat.floor_eq_iff (by positivity)]
      norm_num
    have h5 : (⌊(8 : ℚ) * ((10 : ℕ) / ((7 + 8 : ℕ) : ℚ))⌋₊ : ℕ) = 5 := by
      rw [Nat.floor_eq_iff (by positivity)]
      norm_num
    simp only [Prod.mk.injEq]
    constructor
    · rw [← h4]
      norm_num
    · rw [← h5]
      norm_num
  have h := fades_preserve_interior c9Buffer c9Options
  refine ⟨by rw [hcounts], by rw [hcounts, c9Buffer]; norm_num, ?_, h.2.2.2⟩
  exact h.1 0 4 (by rw [hcounts]) (by rw [hcounts, c9Buffer]; norm_num)
